import Mathlib

/-!
A shallow embedding of the IK subsystem of the three-avatar repository
(file src/avatar-ik.ts), together with theorems checking its
natural-language specification.

Modelling conventions:
* JavaScript numbers are modelled as exact rationals.  Math.sqrt is not
  total on the rationals, so the update function takes a square-root
  oracle as a parameter; each theorem that needs it constrains the oracle
  at exactly the argument the code passes to Math.sqrt.
* THREE.Matrix4 world matrices of Object3D instances are always affine
  (bottom row 0,0,0,1), so they are modelled as a 3x3 linear part plus a
  translation.  THREE.Matrix4.invert computes the true inverse (zero
  matrix when the determinant is zero); on affine matrices this is the
  affine inverse computed here via the adjugate.
* Scene-graph queries (getWorldPosition, getWorldQuaternion, parent
  matrices) are read-only inputs of a frame and are passed explicitly.
* Object identity of bones (JavaScript ===) is modelled by a numeric id
  field; THREE.MathUtils.degToRad multiplies by the constant DEG2RAD =
  pi/180, which is irrational, so the model takes the conversion factor
  as a parameter c.
-/

namespace ThreeAvatar

/-! ### Vectors, quaternions, matrices (the THREE primitives the code uses) -/

structure Vec3 where
  x : ℚ
  y : ℚ
  z : ℚ
deriving DecidableEq

def Vec3.zero : Vec3 := ⟨0, 0, 0⟩

/-- THREE.Vector3.distanceToSquared. -/
def Vec3.distanceToSquared (a b : Vec3) : ℚ :=
  (a.x - b.x) ^ 2 + (a.y - b.y) ^ 2 + (a.z - b.z) ^ 2

/-- THREE.Vector3.lerp: this.x += (v.x - this.x) * alpha, componentwise. -/
def Vec3.lerp (a b : Vec3) (alpha : ℚ) : Vec3 :=
  ⟨a.x + (b.x - a.x) * alpha, a.y + (b.y - a.y) * alpha, a.z + (b.z - a.z) * alpha⟩

def Vec3.add (a b : Vec3) : Vec3 := ⟨a.x + b.x, a.y + b.y, a.z + b.z⟩

def Vec3.neg (a : Vec3) : Vec3 := ⟨-a.x, -a.y, -a.z⟩

structure Quat where
  x : ℚ
  y : ℚ
  z : ℚ
  w : ℚ
deriving DecidableEq

def Quat.one : Quat := ⟨0, 0, 0, 1⟩

/-- THREE.Quaternion.multiplyQuaternions (Hamilton product a * b). -/
def Quat.mul (a b : Quat) : Quat :=
  ⟨a.x * b.w + a.w * b.x + a.y * b.z - a.z * b.y,
   a.y * b.w + a.w * b.y + a.z * b.x - a.x * b.z,
   a.z * b.w + a.w * b.z + a.x * b.y - a.y * b.x,
   a.w * b.w - a.x * b.x - a.y * b.y - a.z * b.z⟩

/-- THREE.Quaternion.invert = conjugate (assumes unit length). -/
def Quat.inv (a : Quat) : Quat := ⟨-a.x, -a.y, -a.z, a.w⟩

structure Mat3 where
  m00 : ℚ
  m01 : ℚ
  m02 : ℚ
  m10 : ℚ
  m11 : ℚ
  m12 : ℚ
  m20 : ℚ
  m21 : ℚ
  m22 : ℚ
deriving DecidableEq

def Mat3.one : Mat3 := ⟨1, 0, 0, 0, 1, 0, 0, 0, 1⟩

def Mat3.mulVec (m : Mat3) (v : Vec3) : Vec3 :=
  ⟨m.m00 * v.x + m.m01 * v.y + m.m02 * v.z,
   m.m10 * v.x + m.m11 * v.y + m.m12 * v.z,
   m.m20 * v.x + m.m21 * v.y + m.m22 * v.z⟩

def Mat3.det (m : Mat3) : ℚ :=
  m.m00 * (m.m11 * m.m22 - m.m12 * m.m21)
    - m.m01 * (m.m10 * m.m22 - m.m12 * m.m20)
    + m.m02 * (m.m10 * m.m21 - m.m11 * m.m20)

/-- Inverse via the adjugate; all entries are 0 when the determinant is 0
(matching THREE.Matrix4.invert, which zeroes the matrix in that case). -/
def Mat3.inv (m : Mat3) : Mat3 :=
  let d := m.det
  ⟨(m.m11 * m.m22 - m.m12 * m.m21) / d,
   (m.m02 * m.m21 - m.m01 * m.m22) / d,
   (m.m01 * m.m12 - m.m02 * m.m11) / d,
   (m.m12 * m.m20 - m.m10 * m.m22) / d,
   (m.m00 * m.m22 - m.m02 * m.m20) / d,
   (m.m02 * m.m10 - m.m00 * m.m12) / d,
   (m.m10 * m.m21 - m.m11 * m.m20) / d,
   (m.m01 * m.m20 - m.m00 * m.m21) / d,
   (m.m00 * m.m11 - m.m01 * m.m10) / d⟩

/-- An affine transform: the shape every Object3D.matrixWorld has. -/
structure Affine where
  lin : Mat3
  tr : Vec3
deriving DecidableEq

def Affine.one : Affine := ⟨Mat3.one, Vec3.zero⟩

/-- THREE.Vector3.applyMatrix4 restricted to affine matrices (w stays 1). -/
def Affine.apply (m : Affine) (v : Vec3) : Vec3 :=
  (m.lin.mulVec v).add m.tr

/-- THREE.Matrix4.invert on an affine matrix. -/
def Affine.inverse (m : Affine) : Affine :=
  ⟨m.lin.inv, Vec3.neg (m.lin.inv.mulVec m.tr)⟩

/-! ### Bones and skeletons -/

structure Bone where
  id : ℕ
  name : String
  position : Vec3
  quaternion : Quat
  matrixWorld : Affine
deriving DecidableEq

/-- THREE.Object3D.getWorldPosition = translation column of matrixWorld. -/
def Bone.worldPos (b : Bone) : Vec3 := b.matrixWorld.tr

structure Skeleton where
  bones : List Bone
  boneInverses : List Affine
deriving DecidableEq

/-- new THREE.Skeleton(bones): boneInverses are computed by
calculateInverses as the inverse of each bone's matrixWorld. -/
def mkSkeleton (bones : List Bone) : Skeleton :=
  ⟨bones, bones.map (fun b => Affine.inverse b.matrixWorld)⟩

/-- Array.prototype.findIndex: first index satisfying the predicate, else -1. -/
def findIndex (p : Bone → Bool) : List Bone → Int
  | [] => -1
  | v :: rest =>
    if p v then 0
    else
      let r := findIndex p rest
      if r = -1 then -1 else r + 1

/-- skeleton.bones.findIndex((v) => v === b), with === modelled by bone id. -/
def findIndexBone (bones : List Bone) (b : Bone) : Int :=
  findIndex (fun v => v.id == b.id) bones

/-- Reading back the bone a stored findIndex result refers to. -/
def resolveBone (bones : List Bone) (i : Int) : Option Bone :=
  if i < 0 then none else bones.get? i.toNat

/-! ### findOrAddTargetBone (src/avatar-ik.ts lines 234-259) -/

/-- The fresh target bone findOrAddTargetBone creates: a new THREE.Bone
with the requested name whose local position is set (after person.add /
person.updateMatrixWorld) to the effector's world position brought into
the person's local frame; its matrixWorld is still the identity when the
inverse-bind entry is pushed.  `freshId` models the identity of the newly
allocated bone object. -/
def mkTargetBone (personMatrixWorld : Affine) (nm : String)
    (effectorBone : Bone) (freshId : ℕ) : Bone :=
  { id := freshId, name := nm,
    position := (Affine.inverse personMatrixWorld).apply effectorBone.worldPos,
    quaternion := Quat.one, matrixWorld := Affine.one }

/--
Mirrors findOrAddTargetBone (the appended inverse-bind entry is the
inverse of the fresh bone's identity matrixWorld).
-/
def findOrAddTargetBone (skel : Skeleton) (personMatrixWorld : Affine)
    (name : String) (effectorBone : Bone) (freshId : ℕ) : Skeleton × Bone :=
  match skel.bones.find? (fun v => v.name == name) with
  | some b => (skel, b)
  | none =>
    ({ bones := skel.bones ++ [mkTargetBone personMatrixWorld name effectorBone freshId],
       boneInverses := skel.boneInverses ++ [Affine.inverse Affine.one] },
     mkTargetBone personMatrixWorld name effectorBone freshId)

/-! ### Rotation limits (src/avatar-ik.ts lines 50-64, 261-264) -/

/-- x, y, z in degrees. -/
structure Vec3Tupple where
  x : ℚ
  y : ℚ
  z : ℚ
deriving DecidableEq

structure RotationLimit where
  rotationMin : Option Vec3Tupple
  rotationMax : Option Vec3Tupple
deriving DecidableEq

structure RotationLimitSet where
  leftArm : RotationLimit × RotationLimit
  rightArm : RotationLimit × RotationLimit
deriving DecidableEq

structure WristRotationOffsetSet where
  left : Vec3Tupple
  right : Vec3Tupple
deriving DecidableEq

/-- THREE.MathUtils.degToRad deg = deg * DEG2RAD; the irrational constant
DEG2RAD = pi/180 is the parameter c. -/
def degToRad (c deg : ℚ) : ℚ := deg * c

/-- limitToVec: ar ? new Vector3().fromArray(ar.map(degToRad)) : undefined. -/
def limitToVec (c : ℚ) (ar : Option Vec3Tupple) : Option Vec3 :=
  ar.map (fun t => ⟨degToRad c t.x, degToRad c t.y, degToRad c t.z⟩)

/-! ### VRMapping state (src/avatar-ik.ts lines 308-339) -/

/--
The mutable state a VRMapping instance owns, plus the local fields it
writes through its bone references.  ikTargetPos / wristQuat stand for
ikTarget.position and wristBone.quaternion, the two scene-graph fields
mapVRAvatar and reset assign; the bone ids record which scene objects
those writes land on.
-/
structure VRMappingState where
  ikTargetBoneId : ℕ
  ikTargetPos : Vec3
  ikTargetInitPos : Vec3
  wristBoneId : ℕ
  wristQuat : Quat
  wristBoneInitQuat : Quat
  wristRotationOffset : Option Quat
  maxDistanceSquared : ℚ
  maxShoulderToControllderDistanceSquared : ℚ
  shoulderBoneId : ℕ
deriving DecidableEq

/-- The VRMapping constructor: snapshots the target's position and the
wrist's quaternion, and seeds maxDistanceSquared with the current
shoulder-to-wrist squared world distance. -/
def mkVRMapping (ikTarget wristBone shoulderBone : Bone)
    (wristRotationOffset : Option Quat) : VRMappingState :=
  { ikTargetBoneId := ikTarget.id
    ikTargetPos := ikTarget.position
    ikTargetInitPos := ikTarget.position
    wristBoneId := wristBone.id
    wristQuat := wristBone.quaternion
    wristBoneInitQuat := wristBone.quaternion
    wristRotationOffset := wristRotationOffset
    maxDistanceSquared :=
      shoulderBone.worldPos.distanceToSquared wristBone.worldPos
    maxShoulderToControllderDistanceSquared := 0
    shoulderBoneId := shoulderBone.id }

/-- What getVrHand() returns on a frame: the controller object's local
position (read by tick's sentinel test) and its world pose. -/
structure HandInput where
  position : Vec3
  worldPos : Vec3
  worldQuat : Quat
deriving DecidableEq

/-- The scene-graph values one arm's update reads during a frame. -/
structure ArmFrameInput where
  vrHand : Option HandInput
  shoulderWorldPos : Vec3
  wristWorldPos : Vec3
  ikTargetParentMatrixWorld : Affine
  wristParentWorldQuat : Quat
deriving DecidableEq

/-- Step 1 of mapVRAvatar: raise maxDistanceSquared to the current
shoulder-to-wrist squared distance if that is larger. -/
def updMaxDistanceSquared (m : VRMappingState) (inp : ArmFrameInput) : ℚ :=
  if m.maxDistanceSquared <
      inp.shoulderWorldPos.distanceToSquared inp.wristWorldPos
  then inp.shoulderWorldPos.distanceToSquared inp.wristWorldPos
  else m.maxDistanceSquared

/-- Step 2 of mapVRAvatar: raise maxShoulderToControllderDistanceSquared
to the current shoulder-to-controller squared distance if larger. -/
def updMaxShoulder (m : VRMappingState) (hand : HandInput)
    (inp : ArmFrameInput) : ℚ :=
  if m.maxShoulderToControllderDistanceSquared <
      inp.shoulderWorldPos.distanceToSquared hand.worldPos
  then inp.shoulderWorldPos.distanceToSquared hand.worldPos
  else m.maxShoulderToControllderDistanceSquared

/-- The world-space IK target the update chooses, before it is converted
into the target bone parent's local space.  `s` is the Math.sqrt oracle:
alpha = sqrt(maxDistanceSquared / maxShoulderToControllderDistanceSquared),
both maxima already updated. -/
def chosenWorldTarget (s : ℚ → ℚ) (m : VRMappingState) (hand : HandInput)
    (inp : ArmFrameInput) : Vec3 :=
  if updMaxDistanceSquared m inp <
      inp.shoulderWorldPos.distanceToSquared hand.worldPos
  then inp.shoulderWorldPos.lerp hand.worldPos
    (s (updMaxDistanceSquared m inp / updMaxShoulder m hand inp))
  else hand.worldPos

/-- VRMapping.mapVRAvatar (src/avatar-ik.ts lines 341-407). -/
def mapVRAvatar (s : ℚ → ℚ) (m : VRMappingState) (inp : ArmFrameInput) :
    VRMappingState :=
  match inp.vrHand with
  | none => m
  | some hand =>
    let newPos :=
      (Affine.inverse inp.ikTargetParentMatrixWorld).apply
        (chosenWorldTarget s m hand inp)
    let vrHandQuat := Quat.mul (Quat.inv inp.wristParentWorldQuat) hand.worldQuat
    let newWrist :=
      match m.wristRotationOffset with
      | some off => Quat.mul vrHandQuat off
      | none => vrHandQuat
    { m with
      maxDistanceSquared := updMaxDistanceSquared m inp
      maxShoulderToControllderDistanceSquared := updMaxShoulder m hand inp
      ikTargetPos := newPos
      wristQuat := newWrist }

/-- VRMapping.reset (src/avatar-ik.ts lines 408-411). -/
def VRMapping.reset (m : VRMappingState) : VRMappingState :=
  { m with ikTargetPos := m.ikTargetInitPos, wristQuat := m.wristBoneInitQuat }

/-- A sequence of per-frame mapVRAvatar calls. -/
def mapVRAvatarSeq (s : ℚ → ℚ) (m : VRMappingState) :
    List ArmFrameInput → VRMappingState
  | [] => m
  | inp :: rest => mapVRAvatarSeq s (mapVRAvatar s m inp) rest

/-! ### createIKSettings (src/avatar-ik.ts lines 266-306) -/

structure IKLink where
  index : Int
  rotationMin : Option Vec3
  rotationMax : Option Vec3
deriving DecidableEq

structure IK where
  target : Int
  effector : Int
  iteration : ℕ
  minAngle : ℚ
  maxAngle : ℚ
  links : List IKLink
deriving DecidableEq

/--
Mirrors createIKSettings.  `c` is the DEG2RAD factor and `e2q` models
new THREE.Quaternion().setFromEuler (trigonometric, kept abstract); the
Euler it receives already holds the degToRad-converted offset angles.
`freshId` is the identity of the target bone allocated when none exists.
-/
def createIKSettings (c : ℚ) (e2q : Vec3 → Quat) (skel : Skeleton)
    (personMatrixWorld : Affine) (name : String)
    (bones : Bone × Bone × Bone)
    (rotationLimits : RotationLimit × RotationLimit)
    (rotationOffset : Vec3Tupple) (freshId : ℕ) :
    Skeleton × IK × VRMappingState :=
  let r := findOrAddTargetBone skel personMatrixWorld name bones.2.2 freshId
  let skel1 := r.1
  let targetBone := r.2
  let ik : IK :=
    { target := findIndexBone skel1.bones targetBone
      effector := findIndexBone skel1.bones bones.2.2
      iteration := 2
      minAngle := -(1 / 5)
      maxAngle := 1 / 5
      links :=
        [{ index := findIndexBone skel1.bones bones.2.1
           rotationMin := limitToVec c rotationLimits.2.rotationMin
           rotationMax := limitToVec c rotationLimits.2.rotationMax },
         { index := findIndexBone skel1.bones bones.1
           rotationMin := limitToVec c rotationLimits.1.rotationMin
           rotationMax := limitToVec c rotationLimits.1.rotationMax }] }
  let vrMapping :=
    mkVRMapping targetBone bones.2.2 bones.1
      (some (e2q ⟨degToRad c rotationOffset.x, degToRad c rotationOffset.y,
                  degToRad c rotationOffset.z⟩))
  (skel1, ik, vrMapping)

/-! ### AvatarIK (src/avatar-ik.ts lines 80-232) -/

/-- IKTargetBones: [shoulder, elbow, wrist], each possibly undefined. -/
structure IKTargetBones where
  b0 : Option Bone
  b1 : Option Bone
  b2 : Option Bone
deriving DecidableEq

/-- isNotIncludeUndefined (src/avatar-ik.ts lines 12-16): the strict
triple when no component is undefined. -/
def isNotIncludeUndefined (bs : IKTargetBones) : Option (Bone × Bone × Bone) :=
  match bs.b0, bs.b1, bs.b2 with
  | some a, some b, some c => some (a, b, c)
  | _, _, _ => none

def tripleToList : Option (Bone × Bone × Bone) → List Bone
  | some (a, b, c) => [a, b, c]
  | none => []

structure AvatarIKState where
  solverPresent : Bool
  helperPresent : Bool
  intervalSec : ℚ
  sec : ℚ
  skeleton : Skeleton
  iks : List IK
  vrMappings : List VRMappingState
deriving DecidableEq

/--
The AvatarIK constructor (src/avatar-ik.ts lines 97-175).  `personSkeleton`
is person.skeleton if the target object already has one; `freshIdLeft` /
`freshIdRight` are the identities of target bones allocated for each arm.
The left chain is set up before the right one, exactly as in the code.
-/
def avatarIKInit (c : ℚ) (e2q : Vec3 → Quat)
    (personSkeleton : Option Skeleton) (personMatrixWorld : Affine)
    (maybeRightArmBones maybeLeftArmBones : IKTargetBones)
    (rotationLimitSet : RotationLimitSet)
    (wristRotationOffsetSet : WristRotationOffsetSet)
    (isDebug : Bool) (intervalSecOpt : Option ℚ)
    (freshIdLeft freshIdRight : ℕ) : AvatarIKState :=
  let intervalSec :=
    match intervalSecOpt with
    | some v => v
    | none => 1 / 60
  let leftArmBones := isNotIncludeUndefined maybeLeftArmBones
  let rightArmBones := isNotIncludeUndefined maybeRightArmBones
  let skeleton0 :=
    match personSkeleton with
    | some sk => sk
    | none => mkSkeleton (tripleToList leftArmBones ++ tripleToList rightArmBones)
  let acc1 :=
    match leftArmBones with
    | some lb =>
      let r := createIKSettings c e2q skeleton0 personMatrixWorld "leftArmIK"
        lb rotationLimitSet.leftArm wristRotationOffsetSet.left freshIdLeft
      (r.1, [r.2.1], [r.2.2])
    | none => (skeleton0, ([] : List IK), ([] : List VRMappingState))
  let acc2 :=
    match rightArmBones with
    | some rb =>
      let r := createIKSettings c e2q acc1.1 personMatrixWorld "rightArmIK"
        rb rotationLimitSet.rightArm wristRotationOffsetSet.right freshIdRight
      (r.1, acc1.2.1 ++ [r.2.1], acc1.2.2 ++ [r.2.2])
    | none => acc1
  { solverPresent := true
    helperPresent := isDebug
    intervalSec := intervalSec
    sec := 0
    skeleton := acc2.1
    iks := acc2.2.1
    vrMappings := acc2.2.2 }

/-- The sentinel test of tick: vrHandPos && !(x===0 && y===0 && z===0). -/
def handActive : Option HandInput → Bool
  | none => false
  | some h => !(h.position.x == 0 && h.position.y == 0 && h.position.z == 0)

inductive ArmEffect where
  | mapped
  | armReset
deriving DecidableEq

/-- The per-arm branch of tick's loop body: mapVRAvatar when the hand is
active, reset otherwise.  Also records which branch ran. -/
def armDispatch (s : ℚ → ℚ) (inp : ArmFrameInput) (m : VRMappingState) :
    VRMappingState × ArmEffect :=
  if handActive inp.vrHand then (mapVRAvatar s m inp, ArmEffect.mapped)
  else (VRMapping.reset m, ArmEffect.armReset)

/-- tick's loop over this._vrMappings, carrying the running index;
returns the updated mappings and the trace of (index, branch) events.
The solver.updateOne call that follows each branch is external three.js
code that rotates only the link bones of iks[i]. -/
def tickFireAux (s : ℚ → ℚ) (inputs : ℕ → ArmFrameInput) (i : ℕ) :
    List VRMappingState → List VRMappingState × List (ℕ × ArmEffect)
  | [] => ([], [])
  | m :: rest =>
    let r := armDispatch s (inputs i) m
    let rec' := tickFireAux s inputs (i + 1) rest
    (r.1 :: rec'.1, (i, r.2) :: rec'.2)

/-- AvatarIK.tick (src/avatar-ik.ts lines 196-221).  `inputs i` is what
the i-th mapping's scene queries return during this invocation. -/
def tick (s : ℚ → ℚ) (st : AvatarIKState) (deltaTime : ℚ)
    (inputs : ℕ → ArmFrameInput) : AvatarIKState × List (ℕ × ArmEffect) :=
  if st.sec + deltaTime < st.intervalSec then
    ({ st with sec := st.sec + deltaTime }, [])
  else if st.solverPresent then
    ({ st with sec := 0, vrMappings := (tickFireAux s inputs 0 st.vrMappings).1 },
     (tickFireAux s inputs 0 st.vrMappings).2)
  else ({ st with sec := 0 }, [])

/-- AvatarIK.dispose (src/avatar-ik.ts lines 225-231): deletes the solver
reference and removes the debug helper. -/
def dispose (st : AvatarIKState) : AvatarIKState :=
  { st with solverPresent := false, helperPresent := false }

/-- A sequence of tick calls, concatenating the event traces. -/
def tickSeq (s : ℚ → ℚ) (st : AvatarIKState) :
    List (ℚ × (ℕ → ArmFrameInput)) → AvatarIKState × List (ℕ × ArmEffect)
  | [] => (st, [])
  | (dt, inp) :: rest =>
    let r := tick s st dt inp
    let r2 := tickSeq s r.1 rest
    (r2.1, r.2 ++ r2.2)

/-! ### Which bones a constructed AvatarIK can write

tick writes ikTarget.position and wristBone.quaternion through the
mappings, and the external CCD solver step rotates the link bones of
each ik entry; nothing else is written. -/

def ikWritableIds (bones : List Bone) (ik : IK) : List ℕ :=
  ik.links.filterMap (fun l => (resolveBone bones l.index).map Bone.id)

def writableBoneIds (st : AvatarIKState) : List ℕ :=
  st.vrMappings.map (fun m => m.wristBoneId) ++
    st.vrMappings.map (fun m => m.ikTargetBoneId) ++
    (st.iks.map (ikWritableIds st.skeleton.bones)).flatten

/-! ### Concrete sample data used to exercise the theorems -/

def boneUA : Bone := ⟨1, "ua", Vec3.zero, Quat.one, Affine.one⟩

def boneLA : Bone := ⟨2, "la", Vec3.zero, Quat.one, ⟨Mat3.one, ⟨1/2, 0, 0⟩⟩⟩

def boneHand : Bone := ⟨3, "hand", Vec3.zero, Quat.one, ⟨Mat3.one, ⟨1, 0, 0⟩⟩⟩

def boneLUA : Bone := ⟨4, "lua", Vec3.zero, Quat.one, Affine.one⟩

def boneLLA : Bone := ⟨5, "lla", Vec3.zero, Quat.one, ⟨Mat3.one, ⟨-1/2, 0, 0⟩⟩⟩

def boneLHand : Bone := ⟨6, "lhand", Vec3.zero, Quat.one, ⟨Mat3.one, ⟨-1, 0, 0⟩⟩⟩

def rlA : RotationLimit := ⟨some ⟨10, 0, 0⟩, none⟩

def rlB : RotationLimit := ⟨some ⟨20, 0, 0⟩, none⟩

def sampleLimitSet : RotationLimitSet := ⟨(rlA, rlB), (rlA, rlB)⟩

def sampleOffsetSet : WristRotationOffsetSet := ⟨⟨0, 0, 0⟩, ⟨0, 0, 0⟩⟩

def skelC1 : Skeleton := mkSkeleton [boneUA, boneLA, boneHand]

/-- The chain built over skelC1 with distinguishable limits rlA / rlB and
DEG2RAD factor 1/2. -/
def c1Result : Skeleton × IK × VRMappingState :=
  createIKSettings (1/2) (fun _ => Quat.one) skelC1 Affine.one "leftArmIK"
    (boneUA, boneLA, boneHand) (rlA, rlB) ⟨0, 0, 0⟩ 9

def sampleMapping : VRMappingState :=
  { ikTargetBoneId := 9
    ikTargetPos := Vec3.zero
    ikTargetInitPos := Vec3.zero
    wristBoneId := 3
    wristQuat := Quat.one
    wristBoneInitQuat := Quat.one
    wristRotationOffset := none
    maxDistanceSquared := 1
    maxShoulderToControllderDistanceSquared := 0
    shoulderBoneId := 1 }

def sampleHand : HandInput :=
  { position := ⟨1, 1, 1⟩, worldPos := ⟨10, 0, 0⟩, worldQuat := Quat.one }

def sampleInput : ArmFrameInput :=
  { vrHand := some sampleHand
    shoulderWorldPos := Vec3.zero
    wristWorldPos := ⟨1, 0, 0⟩
    ikTargetParentMatrixWorld := Affine.one
    wristParentWorldQuat := Quat.one }

def sampleInputInactive : ArmFrameInput :=
  { vrHand := none
    shoulderWorldPos := Vec3.zero
    wristWorldPos := ⟨1, 0, 0⟩
    ikTargetParentMatrixWorld := Affine.one
    wristParentWorldQuat := Quat.one }

def sampleIKState : AvatarIKState :=
  { solverPresent := true
    helperPresent := false
    intervalSec := 1/60
    sec := 0
    skeleton := skelC1
    iks := []
    vrMappings := [sampleMapping] }

def sampleSqrt : ℚ → ℚ := fun _ => 1/10

/-! ## Helper lemmas -/

theorem Vec3.distanceToSquared_nonneg (a b : Vec3) :
    0 ≤ a.distanceToSquared b := by
  unfold Vec3.distanceToSquared
  positivity

theorem Vec3.distanceToSquared_lerp (a b : Vec3) (t : ℚ) :
    a.distanceToSquared (a.lerp b t) = t ^ 2 * a.distanceToSquared b := by
  simp only [Vec3.distanceToSquared, Vec3.lerp]
  ring

theorem mapVRAvatar_step_mono (s : ℚ → ℚ) (m : VRMappingState)
    (inp : ArmFrameInput) :
    m.maxDistanceSquared ≤ (mapVRAvatar s m inp).maxDistanceSquared ∧
    m.maxShoulderToControllderDistanceSquared ≤
      (mapVRAvatar s m inp).maxShoulderToControllderDistanceSquared := by
  unfold mapVRAvatar
  cases h : inp.vrHand with
  | none => exact ⟨le_refl _, le_refl _⟩
  | some hand =>
    simp only [updMaxDistanceSquared, updMaxShoulder]
    constructor
    · split
      · exact le_of_lt (by assumption)
      · exact le_refl _
    · split
      · exact le_of_lt (by assumption)
      · exact le_refl _

/-! ## C2 -/

/-- C2: after each single mapVRAvatar call, and hence across any sequence
of per-frame mapVRAvatar calls, both running maxima (maxDistanceSquared,
alias maxReachSquared, and maxShoulderToControllderDistanceSquared,
alias maxObservedControllerDistanceSquared) are greater than or equal to
their values before the call, for arbitrary controller and bone
positions. -/
theorem C2_maxima_monotone :
    (∀ (s : ℚ → ℚ) (m : VRMappingState) (inp : ArmFrameInput),
      m.maxDistanceSquared ≤ (mapVRAvatar s m inp).maxDistanceSquared ∧
      m.maxShoulderToControllderDistanceSquared ≤
        (mapVRAvatar s m inp).maxShoulderToControllderDistanceSquared) ∧
    (∀ (s : ℚ → ℚ) (m : VRMappingState) (inps : List ArmFrameInput),
      m.maxDistanceSquared ≤ (mapVRAvatarSeq s m inps).maxDistanceSquared ∧
      m.maxShoulderToControllderDistanceSquared ≤
        (mapVRAvatarSeq s m inps).maxShoulderToControllderDistanceSquared) := by
  refine ⟨mapVRAvatar_step_mono, ?_⟩
  intro s m inps
  induction inps generalizing m with
  | nil => exact ⟨le_refl _, le_refl _⟩
  | cons inp rest ih =>
    have h1 := mapVRAvatar_step_mono s m inp
    have h2 := ih (mapVRAvatar s m inp)
    exact ⟨le_trans h1.1 h2.1, le_trans h1.2 h2.2⟩

/-! ## C5 -/

/-- C5: whenever the clamp branch is taken (current shoulder-to-controller
squared distance strictly greater than the just-updated
maxDistanceSquared), the divisor maxShoulderToControllderDistanceSquared
has just been raised to at least that squared distance and is strictly
positive, so alpha is well defined; the division-by-zero case is
unreachable from reachable states because maxDistanceSquared is
initialized to a squared distance (first conjunct) and stays nonnegative
through every update (second conjunct). -/
theorem C5_clamp_divisor_positive :
    (∀ ikT w sh off, 0 ≤ (mkVRMapping ikT w sh off).maxDistanceSquared) ∧
    (∀ (s : ℚ → ℚ) (m : VRMappingState) (inp : ArmFrameInput),
      0 ≤ m.maxDistanceSquared →
      0 ≤ (mapVRAvatar s m inp).maxDistanceSquared) ∧
    (∀ (m : VRMappingState) (hand : HandInput) (inp : ArmFrameInput),
      0 ≤ m.maxDistanceSquared →
      updMaxDistanceSquared m inp <
        inp.shoulderWorldPos.distanceToSquared hand.worldPos →
      0 < updMaxShoulder m hand inp) := by
  refine ⟨fun ikT w sh off => ?_, fun s m inp h => ?_, fun m hand inp h hcl => ?_⟩
  · exact Vec3.distanceToSquared_nonneg _ _
  · unfold mapVRAvatar
    cases hv : inp.vrHand with
    | none => exact h
    | some hand =>
      simp only [updMaxDistanceSquared]
      split
      · exact Vec3.distanceToSquared_nonneg _ _
      · exact h
  · have hD : 0 ≤ updMaxDistanceSquared m inp := by
      unfold updMaxDistanceSquared
      split
      · exact Vec3.distanceToSquared_nonneg _ _
      · exact h
    have hd2 : 0 < inp.shoulderWorldPos.distanceToSquared hand.worldPos :=
      lt_of_le_of_lt hD hcl
    unfold updMaxShoulder
    split
    · exact hd2
    · linarith [le_of_not_lt (by assumption)]

/-- Exercises C5_clamp_divisor_positive on concrete data: the sample
mapping with the controller ten units away takes the clamp branch and
the divisor is positive there. -/
theorem C5_witness : 0 < updMaxShoulder sampleMapping sampleHand sampleInput :=
  C5_clamp_divisor_positive.2.2 sampleMapping sampleHand sampleInput
    (by norm_num [sampleMapping])
    (by norm_num [updMaxDistanceSquared, sampleMapping, sampleInput, sampleHand,
          Vec3.distanceToSquared, Vec3.zero])

/-! ## C3 -/

/-- C3: for a freshly constructed chain (maxShoulderToControllderDistanceSquared
still 0, maxDistanceSquared equal to the current = rest shoulder-to-wrist
squared distance), if the first observed controller is at 10 times the
rest shoulder-to-wrist distance (squared distance 100 times larger), the
world-space target chosen by the update — before conversion into the
target bone parent's local space — is lerp(shoulder, controller, alpha)
with alpha = sqrt(1/100), its squared distance from the shoulder is
exactly maxDistanceSquared (i.e. its distance is sqrt(maxReachSquared)),
it lies on the segment (0 ≤ alpha ≤ 1), and the stored local target is
exactly that point transformed by the inverse parent matrix. -/
theorem C3_first_observation_clamp (s : ℚ → ℚ) (m : VRMappingState)
    (inp : ArmFrameInput) (hand : HandInput)
    (hhand : inp.vrHand = some hand)
    (hfresh : m.maxShoulderToControllderDistanceSquared = 0)
    (hrest : inp.shoulderWorldPos.distanceToSquared inp.wristWorldPos
      = m.maxDistanceSquared)
    (hpos : 0 < m.maxDistanceSquared)
    (hten : inp.shoulderWorldPos.distanceToSquared hand.worldPos
      = 100 * m.maxDistanceSquared)
    (hs : s (1/100) * s (1/100) = 1/100)
    (hs0 : 0 ≤ s (1/100)) :
    inp.shoulderWorldPos.distanceToSquared (chosenWorldTarget s m hand inp)
      = m.maxDistanceSquared ∧
    chosenWorldTarget s m hand inp
      = inp.shoulderWorldPos.lerp hand.worldPos (s (1/100)) ∧
    s (1/100) ≤ 1 ∧
    (mapVRAvatar s m inp).ikTargetPos
      = (Affine.inverse inp.ikTargetParentMatrixWorld).apply
          (chosenWorldTarget s m hand inp) ∧
    (mapVRAvatar s m inp).maxDistanceSquared = m.maxDistanceSquared := by
  have hD : updMaxDistanceSquared m inp = m.maxDistanceSquared := by
    unfold updMaxDistanceSquared
    rw [hrest]
    exact if_neg (lt_irrefl _)
  have hS : updMaxShoulder m hand inp = 100 * m.maxDistanceSquared := by
    unfold updMaxShoulder
    rw [hten, hfresh]
    exact if_pos (by linarith)
  have harg : updMaxDistanceSquared m inp / updMaxShoulder m hand inp
      = 1/100 := by
    rw [hD, hS]
    rw [div_eq_iff (by linarith)]
    ring
  have hcond : updMaxDistanceSquared m inp <
      inp.shoulderWorldPos.distanceToSquared hand.worldPos := by
    rw [hD, hten]
    linarith
  have htarget : chosenWorldTarget s m hand inp
      = inp.shoulderWorldPos.lerp hand.worldPos (s (1/100)) := by
    unfold chosenWorldTarget
    rw [if_pos hcond, harg]
  refine ⟨?_, htarget, ?_, ?_, ?_⟩
  · rw [htarget, Vec3.distanceToSquared_lerp, hten, pow_two, hs]
    ring
  · nlinarith [hs, hs0]
  · unfold mapVRAvatar
    rw [hhand]
  · unfold mapVRAvatar
    rw [hhand]
    simpa using hD

/-- Exercises C3_first_observation_clamp on concrete data: shoulder at
the origin, wrist at distance 1, controller at distance 10, sqrt oracle
returning 1/10. -/
theorem C3_witness :
    sampleInput.shoulderWorldPos.distanceToSquared
        (chosenWorldTarget sampleSqrt sampleMapping sampleHand sampleInput)
      = sampleMapping.maxDistanceSquared ∧
    chosenWorldTarget sampleSqrt sampleMapping sampleHand sampleInput
      = sampleInput.shoulderWorldPos.lerp sampleHand.worldPos
          (sampleSqrt (1/100)) :=
  ⟨(C3_first_observation_clamp sampleSqrt sampleMapping sampleInput sampleHand
      rfl rfl
      (by norm_num [sampleInput, sampleMapping, Vec3.distanceToSquared, Vec3.zero])
      (by norm_num [sampleMapping])
      (by norm_num [sampleInput, sampleMapping, sampleHand, Vec3.distanceToSquared, Vec3.zero])
      (by norm_num [sampleSqrt]) (by norm_num [sampleSqrt])).1,
   (C3_first_observation_clamp sampleSqrt sampleMapping sampleInput sampleHand
      rfl rfl
      (by norm_num [sampleInput, sampleMapping, Vec3.distanceToSquared, Vec3.zero])
      (by norm_num [sampleMapping])
      (by norm_num [sampleInput, sampleMapping, sampleHand, Vec3.distanceToSquared, Vec3.zero])
      (by norm_num [sampleSqrt]) (by norm_num [sampleSqrt])).2.1⟩

/-! ## Helper lemmas about the tick loop -/

theorem tickFireAux_getElem? (s : ℚ → ℚ) (inputs : ℕ → ArmFrameInput) :
    ∀ (ms : List VRMappingState) (k i : ℕ),
      (tickFireAux s inputs k ms).1[i]?
        = ms[i]?.map (fun m => (armDispatch s (inputs (k + i)) m).1) := by
  intro ms
  induction ms with
  | nil => intro k i; simp [tickFireAux]
  | cons m rest ih =>
    intro k i
    cases i with
    | zero => simp [tickFireAux]
    | succ j =>
      have harg : k + 1 + j = k + (j + 1) := by omega
      have h := ih (k + 1) j
      rw [harg] at h
      simpa [tickFireAux] using h

theorem tickFireAux_length (s : ℚ → ℚ) (inputs : ℕ → ArmFrameInput) :
    ∀ (ms : List VRMappingState) (k : ℕ),
      (tickFireAux s inputs k ms).1.length = ms.length := by
  intro ms
  induction ms with
  | nil => intro k; simp [tickFireAux]
  | cons m rest ih => intro k; simpa [tickFireAux] using ih (k + 1)

theorem tickFireAux_effect_mem (s : ℚ → ℚ) (inputs : ℕ → ArmFrameInput) :
    ∀ (ms : List VRMappingState) (k i : ℕ) (m : VRMappingState),
      ms[i]? = some m →
      (k + i, (armDispatch s (inputs (k + i)) m).2) ∈ (tickFireAux s inputs k ms).2 := by
  intro ms
  induction ms with
  | nil => intro k i m h; simp at h
  | cons m0 rest ih =>
    intro k i m h
    cases i with
    | zero =>
      simp at h
      subst h
      simp [tickFireAux]
    | succ j =>
      simp at h
      have harg : k + 1 + j = k + (j + 1) := by omega
      have h2 := ih (k + 1) j m h
      rw [harg] at h2
      simp only [tickFireAux, List.mem_cons]
      right
      exact h2

theorem handActive_eq_false_iff (o : Option HandInput) :
    handActive o = false ↔
      (o = none ∨ ∃ h, o = some h ∧ h.position = Vec3.zero) := by
  cases o with
  | none => simp [handActive]
  | some h =>
    simp only [handActive, Bool.not_eq_false', Bool.and_eq_true, beq_iff_eq]
    constructor
    · intro hz
      right
      refine ⟨h, rfl, ?_⟩
      obtain ⟨⟨hx, hy⟩, hz'⟩ := hz
      cases hp : h.position
      simp only [Vec3.zero, Vec3.mk.injEq]
      rw [hp] at hx hy hz'
      simp at hx hy hz'
      exact ⟨hx, hy, hz'⟩
    · rintro (h0 | ⟨h1, he, hp⟩)
      · exact absurd h0 (by simp)
      · cases he
        rw [hp]
        simp [Vec3.zero]

theorem tick_fire_update (s : ℚ → ℚ) (st : AvatarIKState) (dt : ℚ)
    (inputs : ℕ → ArmFrameInput) (i : ℕ) (m : VRMappingState)
    (hge : ¬ st.sec + dt < st.intervalSec) (hsol : st.solverPresent = true)
    (hm : st.vrMappings[i]? = some m) :
    (tick s st dt inputs).1.vrMappings[i]?
      = some (armDispatch s (inputs i) m).1 := by
  unfold tick
  rw [if_neg hge, if_pos hsol]
  have h := tickFireAux_getElem? s inputs st.vrMappings 0 i
  rw [hm, Nat.zero_add] at h
  exact h

/-! ## C6 -/

/-- C6: the tick scheduler is a two-state accumulator machine.  Each call
adds deltaTime to the accumulator; if the accumulated time is strictly
below the interval the call changes nothing else (same mappings, empty
effect trace); otherwise the accumulator is reset to exactly 0 in the
same invocation and (solver present) every chain is updated in place by
armDispatch with its own frame input. -/
theorem C6_tick_two_state (s : ℚ → ℚ) (st : AvatarIKState) (dt : ℚ)
    (inputs : ℕ → ArmFrameInput) :
    (st.sec + dt < st.intervalSec →
      tick s st dt inputs = ({ st with sec := st.sec + dt }, [])) ∧
    (¬ st.sec + dt < st.intervalSec →
      (tick s st dt inputs).1.sec = 0 ∧
      (st.solverPresent = true →
        (tick s st dt inputs).1.vrMappings.length = st.vrMappings.length ∧
        ∀ i m, st.vrMappings[i]? = some m →
          (tick s st dt inputs).1.vrMappings[i]?
            = some (armDispatch s (inputs i) m).1)) := by
  constructor
  · intro hlt
    unfold tick
    rw [if_pos hlt]
  · intro hge
    unfold tick
    rw [if_neg hge]
    by_cases hsol : st.solverPresent = true
    · rw [if_pos hsol]
      refine ⟨rfl, fun _ => ⟨tickFireAux_length s inputs st.vrMappings 0, ?_⟩⟩
      intro i m hm
      have h := tick_fire_update s st dt inputs i m hge hsol hm
      unfold tick at h
      rw [if_neg hge, if_pos hsol] at h
      exact h
    · rw [if_neg hsol]
      exact ⟨rfl, fun hc => absurd hc hsol⟩

/-- Exercises C6_tick_two_state twice on concrete data: an idle call
(dt below the 1/60 interval) produces no effects, and a firing call
resets the accumulator to exactly 0. -/
theorem C6_witness :
    (tick sampleSqrt sampleIKState (1/120) (fun _ => sampleInputInactive)).2 = [] ∧
    (tick sampleSqrt sampleIKState 1 (fun _ => sampleInputInactive)).1.sec = 0 :=
  ⟨by rw [(C6_tick_two_state sampleSqrt sampleIKState (1/120)
        (fun _ => sampleInputInactive)).1 (by norm_num [sampleIKState])],
   ((C6_tick_two_state sampleSqrt sampleIKState 1
        (fun _ => sampleInputInactive)).2 (by norm_num [sampleIKState])).1⟩

/-! ## C4 -/

/-- C4: on a firing tick with the solver present, an arm whose controller
provider returns no object, or an object positioned exactly at the
(0,0,0) sentinel, is reset: its stored mapping becomes VRMapping.reset of
the old one, whose IK target local position is exactly the
initTargetPosition captured at construction and whose wrist quaternion is
exactly the construction-time rest quaternion (both init fields are
untouched by reset and by mapVRAvatar, so they are still the values
captured at construction), and the effect trace records the reset branch
for that arm. -/
theorem C4_inactive_controller_resets (s : ℚ → ℚ) (st : AvatarIKState)
    (dt : ℚ) (inputs : ℕ → ArmFrameInput) (i : ℕ) (m : VRMappingState)
    (hm : st.vrMappings[i]? = some m)
    (hfire : ¬ st.sec + dt < st.intervalSec)
    (hsolver : st.solverPresent = true)
    (hinactive : (inputs i).vrHand = none ∨
      ∃ h, (inputs i).vrHand = some h ∧ h.position = Vec3.zero) :
    (tick s st dt inputs).1.vrMappings[i]? = some (VRMapping.reset m) ∧
    (VRMapping.reset m).ikTargetPos = m.ikTargetInitPos ∧
    (VRMapping.reset m).wristQuat = m.wristBoneInitQuat ∧
    (VRMapping.reset m).ikTargetInitPos = m.ikTargetInitPos ∧
    (VRMapping.reset m).wristBoneInitQuat = m.wristBoneInitQuat ∧
    (∀ (s2 : ℚ → ℚ) (inp2 : ArmFrameInput),
      (mapVRAvatar s2 m inp2).ikTargetInitPos = m.ikTargetInitPos ∧
      (mapVRAvatar s2 m inp2).wristBoneInitQuat = m.wristBoneInitQuat) ∧
    (i, ArmEffect.armReset) ∈ (tick s st dt inputs).2 := by
  have hna : handActive (inputs i).vrHand = false :=
    (handActive_eq_false_iff _).mpr hinactive
  have hdisp : armDispatch s (inputs i) m = (VRMapping.reset m, ArmEffect.armReset) := by
    unfold armDispatch
    rw [hna]
    simp
  constructor
  · have h2 := tick_fire_update s st dt inputs i m hfire hsolver hm
    rw [h2, hdisp]
  · refine ⟨rfl, rfl, rfl, rfl, ?_, ?_⟩
    · intro s2 inp2
      unfold mapVRAvatar
      cases inp2.vrHand with
      | none => exact ⟨rfl, rfl⟩
      | some hand => exact ⟨rfl, rfl⟩
    · have h3 := tickFireAux_effect_mem s inputs st.vrMappings 0 i m hm
      rw [Nat.zero_add, hdisp] at h3
      unfold tick
      rw [if_neg hfire, if_pos hsolver]
      exact h3

/-- Exercises C4_inactive_controller_resets on concrete data: a firing
tick with no controller object resets the single sample mapping. -/
theorem C4_witness :
    (tick sampleSqrt sampleIKState 1 (fun _ => sampleInputInactive)).1.vrMappings[0]?
      = some (VRMapping.reset sampleMapping) :=
  (C4_inactive_controller_resets sampleSqrt sampleIKState 1
    (fun _ => sampleInputInactive) 0 sampleMapping rfl
    (by norm_num [sampleIKState]) rfl (Or.inl rfl)).1

/-! ## C10 -/

theorem tick_no_solver (s : ℚ → ℚ) (st : AvatarIKState) (dt : ℚ)
    (inputs : ℕ → ArmFrameInput) (hs : st.solverPresent = false) :
    (tick s st dt inputs).2 = [] ∧
    (tick s st dt inputs).1 = { st with sec := (tick s st dt inputs).1.sec } := by
  unfold tick
  by_cases h : st.sec + dt < st.intervalSec
  · rw [if_pos h]
    exact ⟨rfl, rfl⟩
  · rw [if_neg h, if_neg (by simp [hs])]
    exact ⟨rfl, rfl⟩

/-- C10: after dispose (which deletes the solver reference and detaches
the helper), every subsequent sequence of tick calls produces an empty
effect trace — so no chain update, no solver step, hence no bone, IK
target or wrist rotation is touched — and the state differs from the
disposed state only in the time accumulator; dispose is idempotent, so
calling it repeatedly is safe. -/
theorem C10_tick_after_dispose (s : ℚ → ℚ) (st : AvatarIKState)
    (steps : List (ℚ × (ℕ → ArmFrameInput))) :
    dispose (dispose st) = dispose st ∧
    (tickSeq s (dispose st) steps).2 = [] ∧
    (tickSeq s (dispose st) steps).1
      = { dispose st with sec := (tickSeq s (dispose st) steps).1.sec } := by
  refine ⟨rfl, ?_⟩
  have key : ∀ (steps : List (ℚ × (ℕ → ArmFrameInput))) (st0 : AvatarIKState),
      st0.solverPresent = false →
      (tickSeq s st0 steps).2 = [] ∧
      (tickSeq s st0 steps).1 = { st0 with sec := (tickSeq s st0 steps).1.sec } := by
    intro steps
    induction steps with
    | nil =>
      intro st0 h0
      exact ⟨rfl, rfl⟩
    | cons step rest ih =>
      intro st0 h0
      obtain ⟨h1, h2⟩ := tick_no_solver s st0 step.1 step.2 h0
      have hsolv : (tick s st0 step.1 step.2).1.solverPresent = false := by
        rw [h2]
        exact h0
      obtain ⟨h3, h4⟩ := ih (tick s st0 step.1 step.2).1 hsolv
      constructor
      · show (tick s st0 step.1 step.2).2 ++ _ = []
        rw [h1, h3]
        rfl
      · show (tickSeq s (tick s st0 step.1 step.2).1 rest).1
          = { st0 with sec := (tickSeq s (tick s st0 step.1 step.2).1 rest).1.sec }
        rw [h4, h2]
  exact key steps (dispose st) rfl

/-! ## Helper lemmas about affine inverses and findIndex -/

theorem Affine.apply_inverse_apply (m : Affine) (hdet : m.lin.det ≠ 0)
    (v : Vec3) : m.apply (m.inverse.apply v) = v := by
  obtain ⟨⟨a, b, c, d, e, f, g, p, q⟩, tx, ty, tz⟩ := m
  obtain ⟨vx, vy, vz⟩ := v
  simp only [Affine.apply, Affine.inverse, Mat3.inv, Mat3.mulVec, Mat3.det,
    Vec3.add, Vec3.neg, Vec3.mk.injEq] at hdet ⊢
  refine ⟨?_, ?_, ?_⟩ <;> field_simp <;> ring

theorem inverse_one_eq_one : Affine.inverse Affine.one = Affine.one := by
  simp only [Affine.inverse, Affine.one, Mat3.inv, Mat3.det, Mat3.one,
    Mat3.mulVec, Vec3.neg, Vec3.zero, Affine.mk.injEq, Mat3.mk.injEq,
    Vec3.mk.injEq]
  norm_num

/-! ## C8 -/

/-- C8: findOrAddTargetBone keeps bones and boneInverses index-aligned.
If a bone with the requested name exists it is returned and nothing is
appended; otherwise exactly one bone and exactly one inverse-bind matrix
(the inverse of the fresh bone's identity world matrix, i.e. the
identity) are appended, and the new target bone's local position is the
effector's world position expressed in the root object's local space
(applying the root's world matrix to the stored position gives back the
effector's world position). -/
theorem C8_findOrAddTargetBone (skel : Skeleton) (personMW : Affine)
    (nm : String) (eff : Bone) (fid : ℕ)
    (hlen : skel.bones.length = skel.boneInverses.length)
    (hdet : personMW.lin.det ≠ 0) :
    (findOrAddTargetBone skel personMW nm eff fid).1.bones.length
      = (findOrAddTargetBone skel personMW nm eff fid).1.boneInverses.length ∧
    (∀ b, skel.bones.find? (fun v => v.name == nm) = some b →
      findOrAddTargetBone skel personMW nm eff fid = (skel, b)) ∧
    (skel.bones.find? (fun v => v.name == nm) = none →
      (findOrAddTargetBone skel personMW nm eff fid).1.bones
        = skel.bones ++ [(findOrAddTargetBone skel personMW nm eff fid).2] ∧
      (findOrAddTargetBone skel personMW nm eff fid).1.boneInverses
        = skel.boneInverses ++ [Affine.one] ∧
      (findOrAddTargetBone skel personMW nm eff fid).2.name = nm ∧
      (findOrAddTargetBone skel personMW nm eff fid).2.id = fid ∧
      personMW.apply (findOrAddTargetBone skel personMW nm eff fid).2.position
        = eff.worldPos) := by
  unfold findOrAddTargetBone
  cases hfind : skel.bones.find? (fun v => v.name == nm) with
  | some b =>
    refine ⟨hlen, ?_, ?_⟩
    · intro b2 hb2
      cases hb2
      rfl
    · intro hnone
      exact absurd hnone (by simp)
  | none =>
    refine ⟨?_, ?_, ?_⟩
    · simp [hlen]
    · intro b2 hb2
      exact Option.noConfusion hb2
    · intro _
      refine ⟨rfl, ?_, rfl, rfl, ?_⟩
      · show skel.boneInverses ++ [Affine.inverse Affine.one] = _
        rw [inverse_one_eq_one]
      · exact Affine.apply_inverse_apply personMW hdet eff.worldPos

/-- Exercises C8_findOrAddTargetBone where no bone has the requested
name: the appended inverse-bind matrix is the identity and the lists stay
aligned. -/
theorem C8_witness :
    (findOrAddTargetBone skelC1 Affine.one "leftArmIK" boneHand 9).1.bones.length
      = (findOrAddTargetBone skelC1 Affine.one "leftArmIK" boneHand 9).1.boneInverses.length ∧
    (findOrAddTargetBone skelC1 Affine.one "leftArmIK" boneHand 9).1.boneInverses
      = skelC1.boneInverses ++ [Affine.one] :=
  ⟨(C8_findOrAddTargetBone skelC1 Affine.one "leftArmIK" boneHand 9 rfl
      (by norm_num [Affine.one, Mat3.one, Mat3.det])).1,
   ((C8_findOrAddTargetBone skelC1 Affine.one "leftArmIK" boneHand 9 rfl
      (by norm_num [Affine.one, Mat3.one, Mat3.det])).2.2 rfl).2.1⟩

theorem resolve_findIndexBone (l : List Bone) (b : Bone)
    (hnd : (l.map Bone.id).Nodup) (hb : b ∈ l) :
    resolveBone l (findIndexBone l b) = some b := by
  induction l with
  | nil => simp at hb
  | cons a rest ih =>
    simp only [List.map_cons, List.nodup_cons] at hnd
    by_cases hab : (a.id == b.id) = true
    · have hba : b = a := by
        rcases List.mem_cons.mp hb with h | h
        · exact h
        · exfalso
          apply hnd.1
          rw [List.mem_map]
          exact ⟨b, h, (beq_iff_eq.mp hab).symm⟩
      subst hba
      simp [findIndexBone, findIndex, hab, resolveBone]
    · have hbrest : b ∈ rest := by
        rcases List.mem_cons.mp hb with h | h
        · exact absurd (by rw [h]; exact beq_self_eq_true a.id) hab
        · exact h
      have ihr := ih hnd.2 hbrest
      have hr0 : ¬ findIndexBone rest b < 0 := by
        intro hlt
        rw [resolveBone, if_pos hlt] at ihr
        exact Option.noConfusion ihr
      have hget : rest.get? (findIndexBone rest b).toNat = some b := by
        rw [resolveBone, if_neg hr0] at ihr
        exact ihr
      have hrneg : findIndexBone rest b ≠ -1 := by
        intro h
        apply hr0
        rw [h]
        decide
      have hfi : findIndexBone (a :: rest) b = findIndexBone rest b + 1 := by
        unfold findIndexBone
        simp only [findIndex]
        rw [if_neg hab]
        rw [if_neg (by exact hrneg)]
      rw [hfi]
      have h0r : 0 ≤ findIndexBone rest b := le_of_not_lt hr0
      rw [resolveBone, if_neg (by omega)]
      have htn : (findIndexBone rest b + 1).toNat = (findIndexBone rest b).toNat + 1 := by
        omega
      rw [htn]
      simpa using hget

theorem findOrAdd_preserves (skel : Skeleton) (pmw : Affine) (nm : String)
    (eff : Bone) (fid : ℕ)
    (hnd : (skel.bones.map Bone.id).Nodup)
    (hfid : fid ∉ skel.bones.map Bone.id) :
    (((findOrAddTargetBone skel pmw nm eff fid).1.bones.map Bone.id).Nodup ∧
      ∀ b, b ∈ skel.bones → b ∈ (findOrAddTargetBone skel pmw nm eff fid).1.bones) := by
  unfold findOrAddTargetBone
  cases skel.bones.find? (fun v => v.name == nm) with
  | some b => exact ⟨hnd, fun b2 hb2 => hb2⟩
  | none =>
    constructor
    · rw [List.map_append, List.nodup_append]
      refine ⟨hnd, by simp, ?_⟩
      intro x hx
      simp only [List.map_cons, List.map_nil, List.mem_cons, List.not_mem_nil,
        or_false]
      intro hxe
      apply hfid
      simp only [mkTargetBone] at hxe
      rw [← hxe]
      exact hx
    · intro b2 hb2
      exact List.mem_append_left _ hb2

/-! ## C1 -/

/--
C1 counterexample: in the chain built over skelC1 with rotation limits
(rlA, rlB) and conversion factor 1/2, link 0 — the link whose stored
index resolves to the lower-arm bone boneLA — carries the limit at list
index 1 (rlB, converted), and not the limit at list index 0 (rlA,
converted), refuting the claim that the limit at index 0 is applied to
the lower-arm link.
-/
theorem C1_counterexample :
    (c1Result.2.1.links[0]?).map (fun l => resolveBone c1Result.1.bones l.index)
      = some (some boneLA) ∧
    (c1Result.2.1.links[0]?).map IKLink.rotationMin
      = some (limitToVec (1/2) rlB.rotationMin) ∧
    (c1Result.2.1.links[0]?).map IKLink.rotationMin
      ≠ some (limitToVec (1/2) rlA.rotationMin) := by
  refine ⟨rfl, rfl, ?_⟩
  intro h
  have h1 : (c1Result.2.1.links[0]?).map IKLink.rotationMin
      = some (limitToVec (1/2) rlB.rotationMin) := rfl
  rw [h1] at h
  have h2 := Option.some.inj h
  have h3 := congrArg (fun o => (o.getD Vec3.zero).x) h2
  simp only [limitToVec, degToRad, rlA, rlB, Option.map_some', Option.getD_some] at h3
  norm_num at h3

/--
C1 (amended): in every chain built by createIKSettings, the rotation
limit at list index 0 is applied to the upper-arm link (link 1, the link
whose index resolves to bones[0]) and the limit at list index 1 is
applied to the lower-arm link (link 0, resolving to bones[1]); each
per-axis value is multiplied by the degrees-to-radians factor exactly
once at build time.
-/
theorem C1_amended_limit_assignment (c : ℚ) (e2q : Vec3 → Quat)
    (skel : Skeleton) (pmw : Affine) (nm : String) (ua la hd : Bone)
    (rl : RotationLimit × RotationLimit) (off : Vec3Tupple) (fid : ℕ)
    (hnd : (skel.bones.map Bone.id).Nodup)
    (hua : ua ∈ skel.bones) (hla : la ∈ skel.bones)
    (hfid : fid ∉ skel.bones.map Bone.id) :
    (createIKSettings c e2q skel pmw nm (ua, la, hd) rl off fid).2.1.links.length = 2 ∧
    ((createIKSettings c e2q skel pmw nm (ua, la, hd) rl off fid).2.1.links[0]?).map
        (fun l => resolveBone (createIKSettings c e2q skel pmw nm (ua, la, hd) rl off fid).1.bones l.index)
      = some (some la) ∧
    ((createIKSettings c e2q skel pmw nm (ua, la, hd) rl off fid).2.1.links[0]?).map
        IKLink.rotationMin
      = some (rl.2.rotationMin.map (fun t => ⟨t.x * c, t.y * c, t.z * c⟩)) ∧
    ((createIKSettings c e2q skel pmw nm (ua, la, hd) rl off fid).2.1.links[0]?).map
        IKLink.rotationMax
      = some (rl.2.rotationMax.map (fun t => ⟨t.x * c, t.y * c, t.z * c⟩)) ∧
    ((createIKSettings c e2q skel pmw nm (ua, la, hd) rl off fid).2.1.links[1]?).map
        (fun l => resolveBone (createIKSettings c e2q skel pmw nm (ua, la, hd) rl off fid).1.bones l.index)
      = some (some ua) ∧
    ((createIKSettings c e2q skel pmw nm (ua, la, hd) rl off fid).2.1.links[1]?).map
        IKLink.rotationMin
      = some (rl.1.rotationMin.map (fun t => ⟨t.x * c, t.y * c, t.z * c⟩)) ∧
    ((createIKSettings c e2q skel pmw nm (ua, la, hd) rl off fid).2.1.links[1]?).map
        IKLink.rotationMax
      = some (rl.1.rotationMax.map (fun t => ⟨t.x * c, t.y * c, t.z * c⟩)) := by
  have hp := findOrAdd_preserves skel pmw nm hd fid hnd hfid
  refine ⟨rfl, ?_, rfl, rfl, ?_, rfl, rfl⟩
  · show some (resolveBone (findOrAddTargetBone skel pmw nm hd fid).1.bones
      (findIndexBone (findOrAddTargetBone skel pmw nm hd fid).1.bones la)) = some (some la)
    rw [resolve_findIndexBone _ la hp.1 (hp.2 la hla)]
  · show some (resolveBone (findOrAddTargetBone skel pmw nm hd fid).1.bones
      (findIndexBone (findOrAddTargetBone skel pmw nm hd fid).1.bones ua)) = some (some ua)
    rw [resolve_findIndexBone _ ua hp.1 (hp.2 ua hua)]

/-- Exercises C1_amended_limit_assignment on skelC1: link 0 resolves to
the lower-arm bone and carries the converted index-1 limit. -/
theorem C1_witness :
    (c1Result.2.1.links[0]?).map IKLink.rotationMin
      = some (rlB.rotationMin.map (fun t => ⟨t.x * (1/2), t.y * (1/2), t.z * (1/2)⟩)) :=
  (C1_amended_limit_assignment (1/2) (fun _ => Quat.one) skelC1 Affine.one
    "leftArmIK" boneUA boneLA boneHand (rlA, rlB) ⟨0, 0, 0⟩ 9
    (by decide) (by simp [skelC1, mkSkeleton]) (by simp [skelC1, mkSkeleton])
    (by decide)).2.2.1

/-! ## C7 -/

/-- C7: every chain built by createIKSettings has exactly 2 links,
ordered effector-adjacent first: link 0's index resolves to the
lower-arm bone (bones[1]), link 1's index resolves to the upper-arm bone
(bones[0]), and the effector index resolves to the hand bone (bones[2]). -/
theorem C7_link_order (c : ℚ) (e2q : Vec3 → Quat)
    (skel : Skeleton) (pmw : Affine) (nm : String) (ua la hd : Bone)
    (rl : RotationLimit × RotationLimit) (off : Vec3Tupple) (fid : ℕ)
    (hnd : (skel.bones.map Bone.id).Nodup)
    (hua : ua ∈ skel.bones) (hla : la ∈ skel.bones) (hhd : hd ∈ skel.bones)
    (hfid : fid ∉ skel.bones.map Bone.id) :
    (createIKSettings c e2q skel pmw nm (ua, la, hd) rl off fid).2.1.links.length = 2 ∧
    ((createIKSettings c e2q skel pmw nm (ua, la, hd) rl off fid).2.1.links[0]?).map
        (fun l => resolveBone (createIKSettings c e2q skel pmw nm (ua, la, hd) rl off fid).1.bones l.index)
      = some (some la) ∧
    ((createIKSettings c e2q skel pmw nm (ua, la, hd) rl off fid).2.1.links[1]?).map
        (fun l => resolveBone (createIKSettings c e2q skel pmw nm (ua, la, hd) rl off fid).1.bones l.index)
      = some (some ua) ∧
    resolveBone (createIKSettings c e2q skel pmw nm (ua, la, hd) rl off fid).1.bones
        (createIKSettings c e2q skel pmw nm (ua, la, hd) rl off fid).2.1.effector
      = some hd := by
  have hp := findOrAdd_preserves skel pmw nm hd fid hnd hfid
  refine ⟨rfl, ?_, ?_, ?_⟩
  · show some (resolveBone (findOrAddTargetBone skel pmw nm hd fid).1.bones
      (findIndexBone (findOrAddTargetBone skel pmw nm hd fid).1.bones la)) = some (some la)
    rw [resolve_findIndexBone _ la hp.1 (hp.2 la hla)]
  · show some (resolveBone (findOrAddTargetBone skel pmw nm hd fid).1.bones
      (findIndexBone (findOrAddTargetBone skel pmw nm hd fid).1.bones ua)) = some (some ua)
    rw [resolve_findIndexBone _ ua hp.1 (hp.2 ua hua)]
  · exact resolve_findIndexBone _ hd hp.1 (hp.2 hd hhd)

/-- Exercises C7_link_order on skelC1: the effector index of the built
chain resolves to the hand bone. -/
theorem C7_witness :
    resolveBone c1Result.1.bones c1Result.2.1.effector = some boneHand :=
  (C7_link_order (1/2) (fun _ => Quat.one) skelC1 Affine.one "leftArmIK"
    boneUA boneLA boneHand (rlA, rlB) ⟨0, 0, 0⟩ 9
    (by decide) (by simp [skelC1, mkSkeleton]) (by simp [skelC1, mkSkeleton])
    (by simp [skelC1, mkSkeleton]) (by decide)).2.2.2

/-! ## Helper lemmas characterizing construction when no target bone exists -/

theorem findOrAdd_of_not_found (skel : Skeleton) (pmw : Affine) (nm : String)
    (eff : Bone) (fid : ℕ) (h : ∀ b ∈ skel.bones, b.name ≠ nm) :
    findOrAddTargetBone skel pmw nm eff fid
      = ({ bones := skel.bones ++ [mkTargetBone pmw nm eff fid],
           boneInverses := skel.boneInverses ++ [Affine.inverse Affine.one] },
         mkTargetBone pmw nm eff fid) := by
  have hf : skel.bones.find? (fun v => v.name == nm) = none := by
    rw [List.find?_eq_none]
    intro x hx
    simpa using h x hx
  unfold findOrAddTargetBone
  rw [hf]

theorem createIKSettings_not_found (c : ℚ) (e2q : Vec3 → Quat)
    (skel : Skeleton) (pmw : Affine) (nm : String) (b0 b1 b2 : Bone)
    (rl : RotationLimit × RotationLimit) (off : Vec3Tupple) (fid : ℕ)
    (h : ∀ b ∈ skel.bones, b.name ≠ nm) :
    createIKSettings c e2q skel pmw nm (b0, b1, b2) rl off fid
      = ({ bones := skel.bones ++ [mkTargetBone pmw nm b2 fid],
           boneInverses := skel.boneInverses ++ [Affine.inverse Affine.one] },
         { target := findIndexBone (skel.bones ++ [mkTargetBone pmw nm b2 fid])
             (mkTargetBone pmw nm b2 fid)
           effector := findIndexBone (skel.bones ++ [mkTargetBone pmw nm b2 fid]) b2
           iteration := 2
           minAngle := -(1 / 5)
           maxAngle := 1 / 5
           links :=
             [{ index := findIndexBone (skel.bones ++ [mkTargetBone pmw nm b2 fid]) b1
                rotationMin := limitToVec c rl.2.rotationMin
                rotationMax := limitToVec c rl.2.rotationMax },
              { index := findIndexBone (skel.bones ++ [mkTargetBone pmw nm b2 fid]) b0
                rotationMin := limitToVec c rl.1.rotationMin
                rotationMax := limitToVec c rl.1.rotationMax }] },
         mkVRMapping (mkTargetBone pmw nm b2 fid) b2 b0
           (some (e2q ⟨degToRad c off.x, degToRad c off.y, degToRad c off.z⟩))) := by
  unfold createIKSettings
  rw [findOrAdd_of_not_found skel pmw nm b2 fid h]

theorem avatarIKInit_left_disabled (c : ℚ) (e2q : Vec3 → Quat) (pmw : Affine)
    (ml : IKTargetBones) (r0 r1 r2 : Bone) (rls : RotationLimitSet)
    (offs : WristRotationOffsetSet) (dbg : Bool) (iv : Option ℚ)
    (fidL fidR : ℕ) (hL : isNotIncludeUndefined ml = none) :
    avatarIKInit c e2q none pmw ⟨some r0, some r1, some r2⟩ ml rls offs dbg iv fidL fidR
      = { solverPresent := true
          helperPresent := dbg
          intervalSec := match iv with | some v => v | none => 1 / 60
          sec := 0
          skeleton := (createIKSettings c e2q (mkSkeleton [r0, r1, r2]) pmw
            "rightArmIK" (r0, r1, r2) rls.rightArm offs.right fidR).1
          iks := [(createIKSettings c e2q (mkSkeleton [r0, r1, r2]) pmw
            "rightArmIK" (r0, r1, r2) rls.rightArm offs.right fidR).2.1]
          vrMappings := [(createIKSettings c e2q (mkSkeleton [r0, r1, r2]) pmw
            "rightArmIK" (r0, r1, r2) rls.rightArm offs.right fidR).2.2] } := by
  unfold avatarIKInit
  rw [hL]
  rfl

theorem avatarIKInit_both_arms (c : ℚ) (e2q : Vec3 → Quat) (pmw : Affine)
    (l0 l1 l2 r0 r1 r2 : Bone) (rls : RotationLimitSet)
    (offs : WristRotationOffsetSet) (dbg : Bool) (iv : Option ℚ)
    (fidL fidR : ℕ) :
    avatarIKInit c e2q none pmw ⟨some r0, some r1, some r2⟩
        ⟨some l0, some l1, some l2⟩ rls offs dbg iv fidL fidR
      = { solverPresent := true
          helperPresent := dbg
          intervalSec := match iv with | some v => v | none => 1 / 60
          sec := 0
          skeleton := (createIKSettings c e2q
            (createIKSettings c e2q (mkSkeleton [l0, l1, l2, r0, r1, r2]) pmw
              "leftArmIK" (l0, l1, l2) rls.leftArm offs.left fidL).1 pmw
            "rightArmIK" (r0, r1, r2) rls.rightArm offs.right fidR).1
          iks := [(createIKSettings c e2q (mkSkeleton [l0, l1, l2, r0, r1, r2]) pmw
              "leftArmIK" (l0, l1, l2) rls.leftArm offs.left fidL).2.1,
            (createIKSettings c e2q
              (createIKSettings c e2q (mkSkeleton [l0, l1, l2, r0, r1, r2]) pmw
                "leftArmIK" (l0, l1, l2) rls.leftArm offs.left fidL).1 pmw
              "rightArmIK" (r0, r1, r2) rls.rightArm offs.right fidR).2.1]
          vrMappings := [(createIKSettings c e2q (mkSkeleton [l0, l1, l2, r0, r1, r2]) pmw
              "leftArmIK" (l0, l1, l2) rls.leftArm offs.left fidL).2.2,
            (createIKSettings c e2q
              (createIKSettings c e2q (mkSkeleton [l0, l1, l2, r0, r1, r2]) pmw
                "leftArmIK" (l0, l1, l2) rls.leftArm offs.left fidL).1 pmw
              "rightArmIK" (r0, r1, r2) rls.rightArm offs.right fidR).2.2] } := rfl

theorem isNotIncludeUndefined_none (ml : IKTargetBones)
    (hdis : ml.b0 = none ∨ ml.b1 = none ∨ ml.b2 = none) :
    isNotIncludeUndefined ml = none := by
  obtain ⟨b0, b1, b2⟩ := ml
  dsimp only at hdis
  rcases hdis with h | h | h
  · subst h
    cases b1 <;> cases b2 <;> rfl
  · subst h
    cases b0 <;> cases b2 <;> rfl
  · subst h
    cases b0 <;> cases b1 <;> rfl

/-! ## C9 -/

/--
C9: when the left arm's bone triple contains undefined and the right
triple is fully defined, the constructor creates exactly one chain and
one VR mapping (the right arm's), without error (the constructor is a
total function); every bone the resulting state can write through a tick
— the mappings' wrist and IK-target bones, and the link bones the solver
step rotates — is one of the right arm's bones or its target bone, so no
bone of the disabled arm is ever mutated; and the right arm's VR mapping
is exactly the mapping built when the left arm is enabled instead (same
fresh target-bone id), so a defined arm is unaffected by the other arm
being disabled.
-/
theorem C9_disabled_arm_creates_nothing (c : ℚ) (e2q : Vec3 → Quat)
    (pmw : Affine) (ml : IKTargetBones) (l0 l1 l2 r0 r1 r2 : Bone)
    (rls : RotationLimitSet) (offs : WristRotationOffsetSet) (dbg : Bool)
    (iv : Option ℚ) (fidL fidR : ℕ)
    (hdis : ml.b0 = none ∨ ml.b1 = none ∨ ml.b2 = none)
    (hnd : ([r0.id, r1.id, r2.id, fidR] : List ℕ).Nodup)
    (hnm : ∀ b ∈ ([l0, l1, l2, r0, r1, r2] : List Bone),
      b.name ≠ "leftArmIK" ∧ b.name ≠ "rightArmIK") :
    (avatarIKInit c e2q none pmw ⟨some r0, some r1, some r2⟩ ml rls offs dbg iv
        fidL fidR).iks.length = 1 ∧
    (avatarIKInit c e2q none pmw ⟨some r0, some r1, some r2⟩ ml rls offs dbg iv
        fidL fidR).vrMappings.length = 1 ∧
    (∀ bid ∈ writableBoneIds (avatarIKInit c e2q none pmw
        ⟨some r0, some r1, some r2⟩ ml rls offs dbg iv fidL fidR),
      bid ∈ ([r0.id, r1.id, r2.id, fidR] : List ℕ)) ∧
    (avatarIKInit c e2q none pmw ⟨some r0, some r1, some r2⟩ ml rls offs dbg iv
        fidL fidR).vrMappings[0]?
      = (avatarIKInit c e2q none pmw ⟨some r0, some r1, some r2⟩
          ⟨some l0, some l1, some l2⟩ rls offs dbg iv fidL fidR).vrMappings[1]? := by
  have hL := isNotIncludeUndefined_none ml hdis
  have hnamesD : ∀ b ∈ (mkSkeleton [r0, r1, r2]).bones, b.name ≠ "rightArmIK" := by
    intro b hb
    simp only [mkSkeleton, List.mem_cons, List.not_mem_nil, or_false] at hb
    refine (hnm b ?_).2
    simp only [List.mem_cons, List.not_mem_nil, or_false]
    tauto
  have hcD := createIKSettings_not_found c e2q (mkSkeleton [r0, r1, r2]) pmw
    "rightArmIK" r0 r1 r2 rls.rightArm offs.right fidR hnamesD
  have hD := avatarIKInit_left_disabled c e2q pmw ml r0 r1 r2 rls offs dbg iv
    fidL fidR hL
  rw [hcD] at hD
  have hndD : (((mkSkeleton [r0, r1, r2]).bones
      ++ [mkTargetBone pmw "rightArmIK" r2 fidR]).map Bone.id).Nodup := by
    simpa [mkSkeleton, mkTargetBone] using hnd
  have hres1 : resolveBone
      ((mkSkeleton [r0, r1, r2]).bones ++ [mkTargetBone pmw "rightArmIK" r2 fidR])
      (findIndexBone
        ((mkSkeleton [r0, r1, r2]).bones ++ [mkTargetBone pmw "rightArmIK" r2 fidR]) r1)
      = some r1 :=
    resolve_findIndexBone _ r1 hndD (by simp [mkSkeleton])
  have hres0 : resolveBone
      ((mkSkeleton [r0, r1, r2]).bones ++ [mkTargetBone pmw "rightArmIK" r2 fidR])
      (findIndexBone
        ((mkSkeleton [r0, r1, r2]).bones ++ [mkTargetBone pmw "rightArmIK" r2 fidR]) r0)
      = some r0 :=
    resolve_findIndexBone _ r0 hndD (by simp [mkSkeleton])
  refine ⟨by rw [hD]; rfl, by rw [hD]; rfl, ?_, ?_⟩
  · intro bid hbid
    rw [hD] at hbid
    simp only [writableBoneIds, ikWritableIds, mkVRMapping, List.map_cons,
      List.map_nil, List.filterMap_cons, List.filterMap_nil, hres1, hres0,
      Option.map_some', List.flatten, List.mem_append, List.mem_cons,
      List.not_mem_nil, or_false, List.append_nil] at hbid
    simp only [List.mem_cons, List.not_mem_nil, or_false]
    simp only [mkTargetBone] at hbid
    tauto
  · have hnamesBL : ∀ b ∈ (mkSkeleton [l0, l1, l2, r0, r1, r2]).bones,
        b.name ≠ "leftArmIK" := by
      intro b hb
      simp only [mkSkeleton] at hb
      exact (hnm b hb).1
    have hcBL := createIKSettings_not_found c e2q
      (mkSkeleton [l0, l1, l2, r0, r1, r2]) pmw "leftArmIK" l0 l1 l2
      rls.leftArm offs.left fidL hnamesBL
    have hB := avatarIKInit_both_arms c e2q pmw l0 l1 l2 r0 r1 r2 rls offs dbg
      iv fidL fidR
    rw [hcBL] at hB
    have hnamesBR : ∀ b ∈ ((mkSkeleton [l0, l1, l2, r0, r1, r2]).bones
        ++ [mkTargetBone pmw "leftArmIK" l2 fidL]), b.name ≠ "rightArmIK" := by
      intro b hb
      rcases List.mem_append.mp hb with h6 | htb
      · simp only [mkSkeleton] at h6
        exact (hnm b h6).2
      · simp only [List.mem_cons, List.not_mem_nil, or_false] at htb
        subst htb
        simp [mkTargetBone]
    have hcBR := createIKSettings_not_found c e2q
      ({ bones := (mkSkeleton [l0, l1, l2, r0, r1, r2]).bones
          ++ [mkTargetBone pmw "leftArmIK" l2 fidL],
         boneInverses := (mkSkeleton [l0, l1, l2, r0, r1, r2]).boneInverses
          ++ [Affine.inverse Affine.one] } : Skeleton) pmw
      "rightArmIK" r0 r1 r2 rls.rightArm offs.right fidR hnamesBR
    rw [hcBR] at hB
    rw [hD, hB]
    rfl

/-- Exercises C9_disabled_arm_creates_nothing on concrete bones: with
the left triple missing its elbow bone, exactly one VR mapping is built
and it equals the right mapping of the fully-enabled construction. -/
theorem C9_witness :
    (avatarIKInit (1/2) (fun _ => Quat.one) none Affine.one
        ⟨some boneUA, some boneLA, some boneHand⟩ ⟨some boneLUA, none, some boneLHand⟩
        sampleLimitSet sampleOffsetSet false none 7 8).vrMappings.length = 1 ∧
    (avatarIKInit (1/2) (fun _ => Quat.one) none Affine.one
        ⟨some boneUA, some boneLA, some boneHand⟩ ⟨some boneLUA, none, some boneLHand⟩
        sampleLimitSet sampleOffsetSet false none 7 8).vrMappings[0]?
      = (avatarIKInit (1/2) (fun _ => Quat.one) none Affine.one
          ⟨some boneUA, some boneLA, some boneHand⟩
          ⟨some boneLUA, some boneLLA, some boneLHand⟩
          sampleLimitSet sampleOffsetSet false none 7 8).vrMappings[1]? :=
  ⟨(C9_disabled_arm_creates_nothing (1/2) (fun _ => Quat.one) Affine.one
      ⟨some boneLUA, none, some boneLHand⟩ boneLUA boneLLA boneLHand
      boneUA boneLA boneHand sampleLimitSet sampleOffsetSet false none 7 8
      (Or.inr (Or.inl rfl)) (by decide)
      (by intro b hb; fin_cases hb <;> exact ⟨by decide, by decide⟩)).2.1,
   (C9_disabled_arm_creates_nothing (1/2) (fun _ => Quat.one) Affine.one
      ⟨some boneLUA, none, some boneLHand⟩ boneLUA boneLLA boneLHand
      boneUA boneLA boneHand sampleLimitSet sampleOffsetSet false none 7 8
      (Or.inr (Or.inl rfl)) (by decide)
      (by intro b hb; fin_cases hb <;> exact ⟨by decide, by decide⟩)).2.2.2⟩

end ThreeAvatar
